import Mathlib

/-!
Shallow embedding of the gpasquev/isfread-py repository (Tektronix ISF
waveform decoder).  The repository holds two source files:

* `src/isfread_py3.py` — the current Python-3 decoder, embedded below as
  `isfread3` (with its stages `isfread3Pre`, `readDeclared`, `dictEndian`,
  `fmtNpts`, `unpackData`, `mkSeries`);
* `src/isfread.py` — the legacy Python-2 decoder, embedded as `isfread2`.

Files are modelled as `List Char` where each `Char` stands for one byte
(all inputs of interest are bytes `< 256`, and the ASCII preamble is
`< 128`).  Python floats are modelled as exact rationals `ℚ`; machine
floating point rounding is not modelled, which is faithful for the
integer-valued examples evaluated here.  `struct.unpack` of `h` (signed
16-bit) is modelled exactly over `ℤ`.  Fallible Python operations
(`int(...)`, `float(...)`, indexing, `dict[...]`, `struct`, `sys.exit`)
are modelled with `Except PyErr`.
-/

set_option maxRecDepth 100000
set_option maxHeartbeats 1000000

/-- Error outcomes of the two decoders.  Each constructor corresponds to a
concrete Python exception or `sys.exit` call site. -/
inductive PyErr where
  /-- `sys.exit` in isfread_py3.py line 91: neither marker found. -/
  | exitNoCurveMarker
  /-- `IndexError` from `bytesHeader[...]` (isfread_py3.py line 93). -/
  | indexError
  /-- `ValueError` from a failed `int(...)` or `float(...)` call. -/
  | valueError
  /-- `UnicodeDecodeError` from `.decode('utf-8')` (isfread_py3.py line 95). -/
  | unicodeDecodeError
  /-- `KeyError` from `dict_endian[...]` (isfread_py3.py line 210, isfread.py line 147). -/
  | keyError
  /-- `struct.error` from `calcsize`/`unpack` with a bad format or short buffer. -/
  | structError
  /-- `sys.exit` in isfread_py3.py line 218: declared and computed byte counts differ. -/
  | exitByteCountMismatch
  /-- `sys.exit` in isfread_py3.py line 251: point format neither Y nor ENV. -/
  | exitBadPointFormat
  /-- `ValueError: I/O operation on closed file` raised by `FID.seek`
  in isfread.py line 129 after the format check closed the file. -/
  | closedFileSeek
  deriving DecidableEq, Repr

-- Decidable equality of decode outcomes, used to evaluate concrete runs.
deriving instance DecidableEq for Except

/-- A Python number as produced by `getnum`: either an `int` or a `float`
(the float value kept exactly as a rational). -/
inductive PyNum where
  | intV (n : ℤ)
  | floatV (q : ℚ)
  deriving DecidableEq, Repr

/-- Numeric value of a `PyNum`. -/
def PyNum.toQ : PyNum → ℚ
  | .intV n => (n : ℚ)
  | .floatV q => q

/-- Python `+` on numbers: `int + int` is an `int`, anything else a `float`. -/
def pyAdd : PyNum → PyNum → PyNum
  | .intV a, .intV b => .intV (a + b)
  | x, y => .floatV (x.toQ + y.toQ)

/-- Python `-` on numbers. -/
def pySub : PyNum → PyNum → PyNum
  | .intV a, .intV b => .intV (a - b)
  | x, y => .floatV (x.toQ - y.toQ)

/-- Python `*` on numbers. -/
def pyMul : PyNum → PyNum → PyNum
  | .intV a, .intV b => .intV (a * b)
  | x, y => .floatV (x.toQ * y.toQ)

/-- Python `==` between a number and an integer literal compares values
(`2.0 == 2` is true). -/
def pyNumEqInt (x : PyNum) (n : ℤ) : Bool :=
  x.toQ == (n : ℚ)

/-- Scan a list for the pattern starting at absolute index `i`; returns the
absolute index of the first match, `-1` when there is none.  Helper for
`pyFind`. -/
def scanFind (pat : List Char) (i : ℕ) : List Char → ℤ
  | [] => if pat == ([] : List Char) then (i : ℤ) else -1
  | c :: rest =>
      if pat == (c :: rest).take pat.length then (i : ℤ)
      else scanFind pat (i + 1) rest

/-- Python `str.find(sub, start)` / `bytes.find`: first index of `pat` at or
after `start` (negative `start` counts from the end, clamped at 0);
`-1` when absent. -/
def pyFind (s pat : List Char) (start : ℤ) : ℤ :=
  let st : ℕ := if start < 0 then ((s.length : ℤ) + start).toNat else start.toNat
  if st > s.length then -1 else scanFind pat st (s.drop st)

/-- Normalise a Python slice index to `[0, n]`. -/
def sliceIdx (n : ℕ) (i : ℤ) : ℕ :=
  if i < 0 then ((n : ℤ) + i).toNat else min i.toNat n

/-- Python slice `s[a:b]` (step 1), with negative-index wrap-around. -/
def pySlice (s : List Char) (a b : ℤ) : List Char :=
  (s.take (sliceIdx s.length b)).drop (sliceIdx s.length a)

/-- Characters stripped by Python `str.strip`/`lstrip` with no argument. -/
def isPySpace (c : Char) : Bool :=
  c == ' ' || c == '\t' || c == '\n' || c == '\r' ||
  c == Char.ofNat 11 || c == Char.ofNat 12

/-- ASCII decimal digit test. -/
def isAsciiDigit (c : Char) : Bool :=
  '0' ≤ c && c ≤ '9'

/-- Value of a nonempty all-digit string, `none` otherwise. -/
def digitsVal (s : List Char) : Option ℕ :=
  if s ≠ [] && s.all isAsciiDigit then
    some (s.foldl (fun a c => 10 * a + (c.toNat - 48)) 0)
  else none

/-- Strip Python whitespace from both ends. -/
def stripWs (s : List Char) : List Char :=
  ((s.dropWhile isPySpace).reverse.dropWhile isPySpace).reverse

/-- Python `int(...)` on a string/bytes: optional whitespace and sign around
a nonempty digit string.  (Underscore separators, accepted by Python ≥ 3.6,
are not modelled; no input below uses them.) -/
def parseIntLit (s : List Char) : Option ℤ :=
  match stripWs s with
  | '-' :: r => (digitsVal r).map (fun n => -(n : ℤ))
  | '+' :: r => (digitsVal r).map (fun n => (n : ℤ))
  | r => (digitsVal r).map (fun n => (n : ℤ))

/-- `int(...)` as an `Except`, raising `ValueError` on failure. -/
def pyIntE (s : List Char) : Except PyErr ℤ :=
  match parseIntLit s with
  | some z => .ok z
  | none => .error .valueError

/-- Mantissa of a float literal: `digits`, `digits.`, `.digits` or
`digits.digits`, with at least one digit in total.  Returns its exact value. -/
def parseMantissa (s : List Char) : Option ℚ :=
  let ip := s.takeWhile isAsciiDigit
  let rest := s.dropWhile isAsciiDigit
  match rest with
  | [] => (digitsVal ip).map (fun n => (n : ℚ))
  | '.' :: fr =>
      if fr.all isAsciiDigit && (ip ≠ [] || fr ≠ []) then
        some ((((digitsVal ip).getD 0 : ℚ)) +
          (((digitsVal fr).getD 0 : ℚ)) / (10 : ℚ) ^ fr.length)
      else none
  | _ => none

/-- Signed decimal exponent of a float literal. -/
def parseExpPart (s : List Char) : Option ℤ :=
  match s with
  | '-' :: r => (digitsVal r).map (fun n => -(n : ℤ))
  | '+' :: r => (digitsVal r).map (fun n => (n : ℤ))
  | r => (digitsVal r).map (fun n => (n : ℤ))

/-- Unsigned body of a float literal: mantissa with optional `e`/`E` exponent. -/
def parseFloatBody (s : List Char) : Option ℚ :=
  let m := s.takeWhile (fun c => !(c == 'e' || c == 'E'))
  let rest := s.dropWhile (fun c => !(c == 'e' || c == 'E'))
  match rest with
  | [] => parseMantissa m
  | _ :: ex =>
      match parseMantissa m, parseExpPart ex with
      | some q, some e => some (q * (10 : ℚ) ^ e)
      | _, _ => none

/-- Python `float(...)`: optional whitespace and sign around a float body.
(`inf`/`nan` literals are not modelled; no input below uses them.) -/
def parseFloatLit (s : List Char) : Option ℚ :=
  match stripWs s with
  | '-' :: r => (parseFloatBody r).map Neg.neg
  | '+' :: r => parseFloatBody r
  | r => parseFloatBody r

/-- `float(...)` as an `Except`, raising `ValueError` on failure. -/
def pyFloatE (s : List Char) : Except PyErr ℚ :=
  match parseFloatLit s with
  | some q => .ok q
  | none => .error .valueError

/-- `getnum` (isfread_py3.py lines 108-118 ≡ isfread.py lines 68-78): find
the tag, find the next `;` from the tag position, take the slice between
tag end and the `;`, and parse it as `int` when it has no `.`, as `float`
otherwise.  (The source recomputes `string[n1+len(tag):n2]` inside each
branch; it equals `s2`.) -/
def getnum (s tag : List Char) : Except PyErr PyNum :=
  let n1 := pyFind s tag 0
  let n2 := pyFind s [';'] n1
  let s2 := pySlice s (n1 + tag.length) n2
  let j := pyFind s2 ['.'] 0
  if j == -1 then
    match pyIntE s2 with
    | .ok z => .ok (.intV z)
    | .error e => .error e
  else
    match pyFloatE s2 with
    | .ok q => .ok (.floatV q)
    | .error e => .error e

/-- `getstr` (isfread_py3.py lines 120-124 ≡ isfread.py lines 80-84):
the slice between tag end and the next `;`, left-stripped.  Never raises. -/
def getstr (s tag : List Char) : List Char :=
  let n1 := pyFind s tag 0
  let n2 := pyFind s [';'] n1
  (pySlice s (n1 + tag.length) n2).dropWhile isPySpace

/-- `getquotedstr` (isfread_py3.py lines 126-132 ≡ isfread.py lines 86-92):
the text strictly between the first `"` after the tag position and the
following `"`.  Never raises. -/
def getquotedstr (s tag : List Char) : List Char :=
  let n1 := pyFind s tag 0
  let n2 := pyFind s ['"'] (n1 + 1)
  let n3 := pyFind s ['"'] (n2 + 1)
  pySlice s (n2 + 1) n3

/-- The sixteen header tags of one naming convention. -/
structure Tags where
  bytN : List Char
  bitN : List Char
  enc : List Char
  bnF : List Char
  bytO : List Char
  wfi : List Char
  ptF : List Char
  xun : List Char
  yun : List Char
  xze : List Char
  xin : List Char
  ptO : List Char
  ymu : List Char
  yze : List Char
  yof : List Char
  nrP : List Char
  deriving DecidableEq, Repr

/-- Full tag names, used by the older `:CURVE #` convention
(isfread_py3.py lines 137-152 and isfread.py lines 95-110). -/
def oldTags : Tags :=
  ⟨"BYT_NR".toList, "BIT_NR".toList, "ENCDG".toList, "BN_FMT".toList,
   "BYT_OR".toList, "WFID".toList, "PT_FMT".toList, "XUNIT".toList,
   "YUNIT".toList, "XZERO".toList, "XINCR".toList, "PT_OFF".toList,
   "YMULT".toList, "YZERO".toList, "YOFF".toList, "NR_PT".toList⟩

/-- Abbreviated tag names, used by the newer `:CURV #` convention
(isfread_py3.py lines 154-169). -/
def newTags : Tags :=
  ⟨"BYT_N".toList, "BIT_N".toList, "ENC".toList, "BN_F".toList,
   "BYT_O".toList, "WFI".toList, "PT_F".toList, "XUN".toList,
   "YUN".toList, "XZE".toList, "XIN".toList, "PT_O".toList,
   "YMU".toList, "YZE".toList, "YOF".toList, "NR_P".toList⟩

/-- The decoded header dictionary (`tupleHeader` / `head` in the sources). -/
structure Header where
  bytenum : PyNum
  bitnum : PyNum
  encoding : List Char
  binformat : List Char
  byteorder : List Char
  wfid : List Char
  pointformat : List Char
  xunit : List Char
  yunit : List Char
  xzero : PyNum
  xincr : PyNum
  ptoff : PyNum
  ymult : PyNum
  yzero : PyNum
  yoff : PyNum
  npts : PyNum
  deriving DecidableEq, Repr

/-- Build the header dictionary from the preamble text with the given tag
set, evaluating the sixteen entries in source order (the first failing
`getnum` determines the raised error, as in Python). -/
def mkHeader (tg : Tags) (s : List Char) : Except PyErr Header := do
  let bytenum ← getnum s tg.bytN
  let bitnum ← getnum s tg.bitN
  let encoding := getstr s tg.enc
  let binformat := getstr s tg.bnF
  let byteorder := getstr s tg.bytO
  let wfid := getquotedstr s tg.wfi
  let pointformat := getstr s tg.ptF
  let xunit := getquotedstr s tg.xun
  let yunit := getquotedstr s tg.yun
  let xzero ← getnum s tg.xze
  let xincr ← getnum s tg.xin
  let ptoff ← getnum s tg.ptO
  let ymult ← getnum s tg.ymu
  let yzero ← getnum s tg.yze
  let yoff ← getnum s tg.yof
  let npts ← getnum s tg.nrP
  pure ⟨bytenum, bitnum, encoding, binformat, byteorder, wfid, pointformat,
        xunit, yunit, xzero, xincr, ptoff, ymult, yzero, yoff, npts⟩

/-- The new-version marker `:CURV #`. -/
def curvKey : List Char := ":CURV #".toList

/-- The old-version marker `:CURVE #`. -/
def curveKey : List Char := ":CURVE #".toList

/-- Marker search of isfread_py3.py lines 81-89: try `:CURV #` first, and
only when it is absent try `:CURVE #`.  Returns the marker position, the
marker length and the `older_version` flag. -/
def locateCurv (hb : List Char) : Option (ℕ × ℕ × Bool) :=
  let i1 := pyFind hb curvKey 0
  if i1 ≠ -1 then some (i1.toNat, curvKey.length, false)
  else
    let i2 := pyFind hb curveKey 0
    if i2 ≠ -1 then some (i2.toNat, curveKey.length, true) else none

/-- `int(chr(bytesHeader[i]))` of isfread_py3.py line 93: `IndexError` when
`i` is out of range, the digit value for an ASCII digit byte, and
`ValueError` for any other byte. -/
def digitAt (hb : List Char) (i : ℕ) : Except PyErr ℕ :=
  match hb.get? i with
  | none => .error .indexError
  | some c => if isAsciiDigit c then .ok (c.toNat - 48) else .error .valueError

/-- `.decode('utf-8')` of isfread_py3.py line 95, for the ASCII preambles
this format uses: succeeds iff every byte is `< 128`.  (Multi-byte UTF-8
sequences, which never occur in an ISF preamble, are not modelled.) -/
def asciiDecode (s : List Char) : Except PyErr (List Char) :=
  if s.all (fun c => c.toNat < 128) then .ok s else .error .unicodeDecodeError

/-- Everything the Python-3 front end (lines 73-169) derives from the file:
marker position/length, `older_version` flag, digit count of the length
field, the truncated preamble text, and the extracted header. -/
structure Pre where
  loc : ℕ
  keylen : ℕ
  older : Bool
  ndig : ℕ
  trunc : List Char
  hd : Header
  deriving DecidableEq, Repr

/-- isfread_py3.py lines 73-169: read the first 511 bytes, locate the
marker, read the digit count, truncate the preamble at
`loc + keylen + 1 + ndig`, decode it, and extract the header fields from
the truncated text only. -/
def isfread3Pre (f : List Char) : Except PyErr Pre :=
  let hb := f.take 511
  match locateCurv hb with
  | none => .error .exitNoCurveMarker
  | some (loc, keylen, older) =>
    match digitAt hb (loc + keylen) with
    | .error e => .error e
    | .ok d =>
      match asciiDecode (hb.take (loc + keylen + 1 + d)) with
      | .error e => .error e
      | .ok tr =>
        match mkHeader (if older then oldTags else newTags) tr with
        | .error e => .error e
        | .ok hd => .ok ⟨loc, keylen, older, d, tr, hd⟩

/-- isfread_py3.py lines 194-195: seek to just after the marker digit and
read the `ndig` length digits from the file, then `int(...)` them. -/
def readDeclared (f : List Char) (p : Pre) : Except PyErr ℤ :=
  pyIntE ((f.drop (p.loc + p.keylen + 1)).take p.ndig)

/-- File position after the length digits were read (a short read near the
end of the file advances only by what was actually read). -/
def dataPos (f : List Char) (p : Pre) : ℕ :=
  p.loc + p.keylen + 1 + ((f.drop (p.loc + p.keylen + 1)).take p.ndig).length

/-- Endianness selector. -/
inductive Endian where
  | big
  | little
  deriving DecidableEq, Repr

/-- `dict_endian` (isfread_py3.py lines 206-209 ≡ isfread.py lines 143-146):
`"MSB"` maps to big-endian (`>`), `"LSB"` to little-endian (`<`), and any
other key is absent. -/
def dictEndian (bo : List Char) : Option Endian :=
  if bo == "MSB".toList then some .big
  else if bo == "LSB".toList then some .little
  else none

/-- The dictionary lookup `dict_endian[...]`, raising `KeyError` on a
missing key. -/
def dictEndianE (bo : List Char) : Except PyErr Endian :=
  match dictEndian bo with
  | some e => .ok e
  | none => .error .keyError

/-- `struct.calcsize(endian + str(npts) + 'h')` viewed through its `npts`
argument: only a nonnegative `int` yields a valid format (of size
`2 * npts`); a float or negative count makes `struct` raise. -/
def fmtNpts (npts : PyNum) : Except PyErr ℕ :=
  match npts with
  | .intV z => if z < 0 then .error .structError else .ok z.toNat
  | .floatV _ => .error .structError

/-- One signed 16-bit value from its unsigned bit pattern. -/
def toSigned16 (n : ℕ) : ℤ :=
  if n < 32768 then (n : ℤ) else (n : ℤ) - 65536

/-- `struct.unpack` of consecutive 16-bit signed integers in the given byte
order.  (A trailing odd byte cannot occur: the caller checks the length.) -/
def decode16 (e : Endian) : List Char → List ℤ
  | b0 :: b1 :: rest =>
      (match e with
       | .big => toSigned16 (256 * b0.toNat + b1.toNat)
       | .little => toSigned16 (b0.toNat + 256 * b1.toNat)) :: decode16 e rest
  | _ => []

/-- isfread_py3.py lines 220-222: read `2 * npts` bytes from the data
position and unpack them; `struct.unpack` raises when fewer bytes are
available.  (Line 221 reads a second, unused buffer `string_data2`; it has
no observable effect and is not modelled.) -/
def unpackData (f : List Char) (p : Pre) (n : ℕ) (e : Endian) :
    Except PyErr (List ℤ) :=
  let bytes := (f.drop (dataPos f p)).take (2 * n)
  if bytes.length == 2 * n then .ok (decode16 e bytes) else .error .structError

/-- The decoded sample series: `(time, value)` for point format `Y`
(a 2-row result), `(time, minValue, maxValue)` for `ENV` (3 rows). -/
inductive Series where
  | y (time value : List PyNum)
  | env (time minv maxv : List PyNum)
  deriving DecidableEq, Repr

/-- `[xzero + xincr*(i-ptoff) for i in range(npts)]`
(isfread_py3.py line 237 ≡ isfread.py line 161). -/
def timeList (hd : Header) (n : ℕ) : List PyNum :=
  (List.range n).map fun i : ℕ =>
    pyAdd hd.xzero (pyMul hd.xincr (pySub (.intV (i : ℤ)) hd.ptoff))

/-- `[yzero + ymult*(y-yoff) for y in data]`
(isfread_py3.py line 238 ≡ isfread.py line 160). -/
def valueList (hd : Header) (data : List ℤ) : List PyNum :=
  data.map fun y => pyAdd hd.yzero (pyMul hd.ymult (pySub (.intV y) hd.yoff))

/-- `[xzero + xincr*(i-ptoff)*2 for i in range(npts)]` after `npts` was
halved (isfread_py3.py line 244). -/
def timeListEnv (hd : Header) (m : ℕ) : List PyNum :=
  (List.range m).map fun i : ℕ =>
    pyAdd hd.xzero
      (pyMul (pyMul hd.xincr (pySub (.intV (i : ℤ)) hd.ptoff)) (.intV 2))

/-- Python extended slice `data[0:len(data):2]` (and, applied to
`data.drop 1`, the slice `data[1:len(data):2]`): every second element. -/
def sliceStep2 : List ℤ → List ℤ
  | [] => []
  | [a] => [a]
  | a :: _ :: rest => a :: sliceStep2 rest

/-- isfread_py3.py lines 236-251: branch on the point format.  `Y` pairs
the time axis with all scaled samples; `ENV` halves `npts` by
`int(npts/2.)` (= `n / 2` since `fmtNpts` certified `n ≥ 0`) and strides
the raw samples into min/max rows; anything else is a fatal exit. -/
def mkSeries (hd : Header) (n : ℕ) (data : List ℤ) : Except PyErr Series :=
  if hd.pointformat == "Y".toList then
    .ok (.y (timeList hd n) (valueList hd data))
  else if hd.pointformat == "ENV".toList then
    .ok (.env (timeListEnv hd (n / 2)) (valueList hd (sliceStep2 data))
          (valueList hd (sliceStep2 (data.drop 1))))
  else .error .exitBadPointFormat

/-- isfread_py3.py lines 193-222 assembled in source order: length digits,
endianness lookup, format size, the declared-vs-computed byte-count check
(fatal on mismatch), and the unpack of the raw samples. -/
def isfread3Raw (f : List Char) :
    Except PyErr (Pre × ℕ × Endian × List ℤ) :=
  match isfread3Pre f with
  | .error e => .error e
  | .ok p =>
    match readDeclared f p with
    | .error e => .error e
    | .ok declared =>
      match dictEndianE p.hd.byteorder with
      | .error e => .error e
      | .ok en =>
        match fmtNpts p.hd.npts with
        | .error e => .error e
        | .ok n =>
          if declared ≠ ((2 * n : ℕ) : ℤ) then .error .exitByteCountMismatch
          else
            match unpackData f p n en with
            | .error e => .error e
            | .ok data => .ok (p, n, en, data)

/-- `isfread` of isfread_py3.py (lines 72-262): the whole decode, returning
the sample series and the header dictionary. -/
def isfread3 (f : List Char) : Except PyErr (Series × Header) :=
  match isfread3Raw f with
  | .error e => .error e
  | .ok (p, n, _, data) =>
    match mkSeries p.hd n data with
    | .error e => .error e
    | .ok s => .ok (s, p.hd)

/-- The supported-format check of isfread.py lines 113-115: true when the
file is rejected (`bytenum != 2 or bitnum != 16 or encoding != 'BIN' or
binformat != 'RI' or pointformat != 'Y'`; `cmp(a,b)` is nonzero exactly
when `a ≠ b`, and numeric `!=` compares values). -/
def py2checkFails (hd : Header) : Bool :=
  !pyNumEqInt hd.bytenum 2 || !pyNumEqInt hd.bitnum 16 ||
  hd.encoding != "BIN".toList || hd.binformat != "RI".toList ||
  hd.pointformat != "Y".toList

/-- The diagnostic printed by isfread.py line 117. -/
def py2UnableMsg : String := "Unable to process IFS file."

/-- The warning printed by isfread.py line 154 on a byte-count mismatch. -/
def py2WarnMsg : String := "WARNING: Something is not going as is was planned!!!"

/-- `isfread` of isfread.py (lines 51-165), the legacy Python-2 decoder.
Returns the lines it printed together with the outcome.  Faithful points:
the header is extracted from the full untruncated 511-byte prefix with the
full tag names; a failed format check prints a diagnostic and closes the
file but execution continues, so the following `FID.seek` raises
`ValueError` on the closed handle; only `:CURVE #` is searched (`ii` may
be `-1`, making the seek target `7`); a byte-count mismatch only prints a
warning, and `read(n2)` then reads the computed (not the declared) count. -/
def isfread2 (f : List Char) :
    List String × Except PyErr (List PyNum × List PyNum × Header) :=
  let hdata := f.take 511
  match mkHeader oldTags hdata with
  | .error e => ([], .error e)
  | .ok hd =>
    let fails := py2checkFails hd
    let log := if fails then [py2UnableMsg] else []
    -- ii = hdata.find(':CURVE #'); FID.seek(ii+8)
    let ii := pyFind hdata curveKey 0
    if fails then (log, .error .closedFileSeek)
    else
      let pos1 := (ii + 8).toNat
      let skipB := (f.drop pos1).take 1
      match pyIntE skipB with
      | .error e => (log, .error e)
      | .ok skip =>
        let pos2 := pos1 + skipB.length
        let n1B := (f.drop pos2).take skip.toNat
        match pyIntE n1B with
        | .error e => (log, .error e)
        | .ok n1 =>
          match dictEndianE hd.byteorder with
          | .error e => (log, .error e)
          | .ok en =>
            match fmtNpts hd.npts with
            | .error e => (log, .error e)
            | .ok n =>
              let log := log ++ (if n1 ≠ ((2 * n : ℕ) : ℤ) then [py2WarnMsg] else [])
              let pos3 := pos2 + n1B.length
              let bytes := (f.drop pos3).take (2 * n)
              if bytes.length == 2 * n then
                let data := decode16 en bytes
                (log, .ok (timeList hd n, valueList hd data, hd))
              else (log, .error .structError)

/-- True exactly on a successful decode outcome. -/
def isOkE {ε α : Type} (x : Except ε α) : Bool :=
  match x with
  | .ok _ => true
  | .error _ => false

/-- ASCII preamble of the concrete well-formed old-convention `Y` file. -/
def W1text : String :=
  "BYT_NR 2;BIT_NR 16;ENCDG BIN;BN_FMT RI;BYT_OR LSB;WFID \"test\";PT_FMT Y;XUNIT \"s\";YUNIT \"V\";XZERO 0;XINCR 1;PT_OFF 0;YMULT 2;YZERO 0;YOFF 0;NR_PT 4;:CURVE #18"

/-- Eight little-endian data bytes encoding the int16 samples 10, -5, 0, 100. -/
def W1data : List Char :=
  [Char.ofNat 10, Char.ofNat 0, Char.ofNat 251, Char.ofNat 255,
   Char.ofNat 0, Char.ofNat 0, Char.ofNat 100, Char.ofNat 0]

/-- A complete well-formed old-convention ISF file with point format `Y`,
4 points, declared byte count 8. -/
def W1 : List Char := W1text.toList ++ W1data

/-- The header extracted from `W1`. -/
def W1hd : Header :=
  ⟨.intV 2, .intV 16, "BIN".toList, "RI".toList, "LSB".toList, "test".toList,
   "Y".toList, "s".toList, "V".toList, .intV 0, .intV 1, .intV 0, .intV 2,
   .intV 0, .intV 0, .intV 4⟩

/-- The front-end result for `W1`: marker at 147, length 8, old convention,
one length digit, preamble truncated at byte 157. -/
def W1pre : Pre := ⟨147, 8, true, 1, W1text.toList, W1hd⟩

/-- Decoded time row of `W1`. -/
def W1t : List PyNum := [.intV 0, .intV 1, .intV 2, .intV 3]

/-- Decoded value row of `W1`. -/
def W1v : List PyNum := [.intV 20, .intV (-10), .intV 0, .intV 200]

/-- Raw unpacked samples of `W1`. -/
def W1D : List ℤ := [10, -5, 0, 100]

/-- `W1` with its binary block replaced by different bytes: agrees with
`W1` on every byte before the binary sample block. -/
def W1b : List Char := W1text.toList ++ "XYZWQRST".toList

/-- `W1` with point format `ENV` (4 points, so two min/max pairs). -/
def W2text : String :=
  "BYT_NR 2;BIT_NR 16;ENCDG BIN;BN_FMT RI;BYT_OR LSB;WFID \"test\";PT_FMT ENV;XUNIT \"s\";YUNIT \"V\";XZERO 0;XINCR 1;PT_OFF 0;YMULT 2;YZERO 0;YOFF 0;NR_PT 4;:CURVE #18"

/-- Complete `ENV` file with an even point count. -/
def W2 : List Char := W2text.toList ++ W1data

/-- The header extracted from `W2`. -/
def W2hd : Header :=
  ⟨.intV 2, .intV 16, "BIN".toList, "RI".toList, "LSB".toList, "test".toList,
   "ENV".toList, "s".toList, "V".toList, .intV 0, .intV 1, .intV 0, .intV 2,
   .intV 0, .intV 0, .intV 4⟩

/-- The front-end result for `W2` (marker at 149). -/
def W2pre : Pre := ⟨149, 8, true, 1, W2text.toList, W2hd⟩

/-- `ENV` file with an odd point count 5 and declared byte count 10. -/
def W2otext : String :=
  "BYT_NR 2;BIT_NR 16;ENCDG BIN;BN_FMT RI;BYT_OR LSB;WFID \"test\";PT_FMT ENV;XUNIT \"s\";YUNIT \"V\";XZERO 0;XINCR 1;PT_OFF 0;YMULT 2;YZERO 0;YOFF 0;NR_PT 5;:CURVE #210"

/-- Ten little-endian data bytes encoding the int16 samples 1, 2, 3, 4, 5. -/
def W2odata : List Char :=
  [Char.ofNat 1, Char.ofNat 0, Char.ofNat 2, Char.ofNat 0, Char.ofNat 3,
   Char.ofNat 0, Char.ofNat 4, Char.ofNat 0, Char.ofNat 5, Char.ofNat 0]

/-- Complete `ENV` file with an odd point count. -/
def W2o : List Char := W2otext.toList ++ W2odata

/-- The header extracted from `W2o` (`NR_PT 5`). -/
def W2ohd : Header :=
  ⟨.intV 2, .intV 16, "BIN".toList, "RI".toList, "LSB".toList, "test".toList,
   "ENV".toList, "s".toList, "V".toList, .intV 0, .intV 1, .intV 0, .intV 2,
   .intV 0, .intV 0, .intV 5⟩

/-- `W1` with the `ENCDG` tag removed entirely. -/
def W3text : String :=
  "BYT_NR 2;BIT_NR 16;BN_FMT RI;BYT_OR LSB;WFID \"test\";PT_FMT Y;XUNIT \"s\";YUNIT \"V\";XZERO 0;XINCR 1;PT_OFF 0;YMULT 2;YZERO 0;YOFF 0;NR_PT 4;:CURVE #18"

/-- Complete file whose preamble has no `ENCDG` tag. -/
def W3 : List Char := W3text.toList ++ W1data

/-- `W1` with the declared byte count changed to 9 = 2 × 4 + 1. -/
def W5text : String :=
  "BYT_NR 2;BIT_NR 16;ENCDG BIN;BN_FMT RI;BYT_OR LSB;WFID \"test\";PT_FMT Y;XUNIT \"s\";YUNIT \"V\";XZERO 0;XINCR 1;PT_OFF 0;YMULT 2;YZERO 0;YOFF 0;NR_PT 4;:CURVE #19"

/-- File declaring 9 data bytes while `NR_PT × 2 = 8`. -/
def W5 : List Char := W5text.toList ++ W1data ++ [Char.ofNat 7]

/-- The front-end result for `W5` (header identical to `W1`). -/
def W5pre : Pre := ⟨147, 8, true, 1, W5text.toList, W1hd⟩

/-- A file containing all old-convention tags but no `:CURV #` and no
`:CURVE #` marker; bytes 7-8 are the digits `18` and bytes 9-16 the text
`AABBCCDD`, exactly where the Python-2 reader looks after `find` returns
`-1` (it seeks to `-1 + 8 = 7`). -/
def W6text : String :=
  "ZZZZZZZ18AABBCCDD;BYT_NR 2;BIT_NR 16;ENCDG BIN;BN_FMT RI;BYT_OR LSB;WFID \"t\";PT_FMT Y;XUNIT \"s\";YUNIT \"V\";XZERO 0;XINCR 1;PT_OFF 0;YMULT 2;YZERO 0;YOFF 0;NR_PT 4;"

/-- Marker-free input decoded successfully by the Python-2 reader. -/
def W6 : List Char := W6text.toList

/-- The header the Python-2 reader extracts from `W6`. -/
def W6hd : Header :=
  ⟨.intV 2, .intV 16, "BIN".toList, "RI".toList, "LSB".toList, "t".toList,
   "Y".toList, "s".toList, "V".toList, .intV 0, .intV 1, .intV 0, .intV 2,
   .intV 0, .intV 0, .intV 4⟩

/-- Preamble with no `YUNIT` tag before the marker. -/
def W7head : String :=
  "BYT_NR 2;BIT_NR 16;ENCDG BIN;BN_FMT RI;BYT_OR LSB;WFID \"t\";PT_FMT Y;XUNIT \"s\";XZERO 0;XINCR 1;PT_OFF 0;YMULT 2;YZERO 0;YOFF 0;NR_PT 4;:CURVE #18"

/-- Eight little-endian data bytes encoding the int16 samples 1, 2, 3, 4. -/
def W7data : List Char :=
  [Char.ofNat 1, Char.ofNat 0, Char.ofNat 2, Char.ofNat 0,
   Char.ofNat 3, Char.ofNat 0, Char.ofNat 4, Char.ofNat 0]

/-- File whose only `YUNIT` tag sits after the binary sample block. -/
def W7 : List Char := W7head.toList ++ W7data ++ ("YUNIT \"Q\";").toList

/-- The header the Python-2 reader extracts from `W7`: `yunit` comes from
the text after the binary block. -/
def W7hd : Header :=
  ⟨.intV 2, .intV 16, "BIN".toList, "RI".toList, "LSB".toList, "t".toList,
   "Y".toList, "s".toList, "Q".toList, .intV 0, .intV 1, .intV 0, .intV 2,
   .intV 0, .intV 0, .intV 4⟩

/-- `W1` with point format `X` (neither `Y` nor `ENV`). -/
def W8text : String :=
  "BYT_NR 2;BIT_NR 16;ENCDG BIN;BN_FMT RI;BYT_OR LSB;WFID \"test\";PT_FMT X;XUNIT \"s\";YUNIT \"V\";XZERO 0;XINCR 1;PT_OFF 0;YMULT 2;YZERO 0;YOFF 0;NR_PT 4;:CURVE #18"

/-- Complete file with unsupported point format `X`. -/
def W8 : List Char := W8text.toList ++ W1data

/-- The header extracted from `W8`. -/
def W8hd : Header :=
  ⟨.intV 2, .intV 16, "BIN".toList, "RI".toList, "LSB".toList, "test".toList,
   "X".toList, "s".toList, "V".toList, .intV 0, .intV 1, .intV 0, .intV 2,
   .intV 0, .intV 0, .intV 4⟩

/-- The front-end result for `W8`. -/
def W8pre : Pre := ⟨147, 8, true, 1, W8text.toList, W8hd⟩

/-- Old-convention file declaring 9 data bytes (`:CURVE #19`) while
holding 4 points; the Python-2 reader only warns about the mismatch. -/
def W9text : String :=
  "BYT_NR 2;BIT_NR 16;ENCDG BIN;BN_FMT RI;BYT_OR LSB;WFID \"t\";PT_FMT Y;XUNIT \"s\";YUNIT \"V\";XZERO 0;XINCR 1;PT_OFF 0;YMULT 2;YZERO 0;YOFF 0;NR_PT 4;:CURVE #19"

/-- Complete mismatched file for the Python-2 reader. -/
def W9 : List Char := W9text.toList ++ W7data

/-- The header the Python-2 reader extracts from `W9`. -/
def W9hd : Header :=
  ⟨.intV 2, .intV 16, "BIN".toList, "RI".toList, "LSB".toList, "t".toList,
   "Y".toList, "s".toList, "V".toList, .intV 0, .intV 1, .intV 0, .intV 2,
   .intV 0, .intV 0, .intV 4⟩

/-- `W1` with the `NR_PT` tag removed entirely. -/
def W10text : String :=
  "BYT_NR 2;BIT_NR 16;ENCDG BIN;BN_FMT RI;BYT_OR LSB;WFID \"test\";PT_FMT Y;XUNIT \"s\";YUNIT \"V\";XZERO 0;XINCR 1;PT_OFF 0;YMULT 2;YZERO 0;YOFF 0;:CURVE #18"

/-- Complete file whose preamble has no `NR_PT` tag. -/
def W10 : List Char := W10text.toList ++ W1data

/-- `W1` with byte order `XSB` (neither `MSB` nor `LSB`). -/
def W11text : String :=
  "BYT_NR 2;BIT_NR 16;ENCDG BIN;BN_FMT RI;BYT_OR XSB;WFID \"test\";PT_FMT Y;XUNIT \"s\";YUNIT \"V\";XZERO 0;XINCR 1;PT_OFF 0;YMULT 2;YZERO 0;YOFF 0;NR_PT 4;:CURVE #18"

/-- Complete file with unsupported byte order `XSB`. -/
def W11 : List Char := W11text.toList ++ W1data

/-- The header extracted from `W11`. -/
def W11hd : Header :=
  ⟨.intV 2, .intV 16, "BIN".toList, "RI".toList, "XSB".toList, "test".toList,
   "Y".toList, "s".toList, "V".toList, .intV 0, .intV 1, .intV 0, .intV 2,
   .intV 0, .intV 0, .intV 4⟩

/-- The front-end result for `W11`. -/
def W11pre : Pre := ⟨147, 8, true, 1, W11text.toList, W11hd⟩

theorem isfread3Raw_ok {f : List Char} {p : Pre} {n : ℕ} {en : Endian}
    {data : List ℤ} (h : isfread3Raw f = .ok (p, n, en, data)) :
    isfread3Pre f = .ok p ∧ readDeclared f p = .ok ((2 * n : ℕ) : ℤ) ∧
      dictEndianE p.hd.byteorder = .ok en ∧ fmtNpts p.hd.npts = .ok n ∧
      unpackData f p n en = .ok data := by
  unfold isfread3Raw at h
  cases hp : isfread3Pre f with
  | error e => simp only [hp] at h; simp at h
  | ok p2 =>
    simp only [hp] at h
    cases hdec : readDeclared f p2 with
    | error e => simp only [hdec] at h; simp at h
    | ok declared =>
      simp only [hdec] at h
      cases hen : dictEndianE p2.hd.byteorder with
      | error e => simp only [hen] at h; simp at h
      | ok en2 =>
        simp only [hen] at h
        cases hn : fmtNpts p2.hd.npts with
        | error e => simp only [hn] at h; simp at h
        | ok n2 =>
          simp only [hn] at h
          by_cases hne : declared ≠ ((2 * n2 : ℕ) : ℤ)
          · simp only [if_pos hne] at h; simp at h
          · simp only [if_neg hne] at h
            push_neg at hne
            cases hu : unpackData f p2 n2 en2 with
            | error e => simp only [hu] at h; simp at h
            | ok d2 =>
              simp only [hu] at h
              injection h with h2
              simp only [Prod.mk.injEq] at h2
              obtain ⟨rfl, rfl, rfl, rfl⟩ := h2
              exact ⟨rfl, hne ▸ hdec, hen, hn, hu⟩

theorem isfread3_ok_stage {f : List Char} {s : Series} {hd : Header} {p : Pre}
    {n : ℕ} {en : Endian} {data : List ℤ} (h : isfread3 f = .ok (s, hd))
    (hraw : isfread3Raw f = .ok (p, n, en, data)) :
    mkSeries p.hd n data = .ok s ∧ hd = p.hd := by
  unfold isfread3 at h
  simp only [hraw] at h
  cases hs : mkSeries p.hd n data with
  | error e => simp only [hs] at h; simp at h
  | ok s2 =>
    simp only [hs] at h
    injection h with h2
    simp only [Prod.mk.injEq] at h2
    obtain ⟨rfl, rfl⟩ := h2
    exact ⟨rfl, rfl⟩

theorem mkSeries_y_ok {hd : Header} {n : ℕ} {data : List ℤ}
    {t v : List PyNum} (h : mkSeries hd n data = .ok (.y t v)) :
    hd.pointformat = "Y".toList ∧ t = timeList hd n ∧ v = valueList hd data := by
  unfold mkSeries at h
  by_cases h1 : hd.pointformat == "Y".toList
  · simp only [if_pos h1] at h
    injection h with h2
    injection h2 with h3 h4
    exact ⟨by simpa using h1, h3.symm, h4.symm⟩
  · simp only [if_neg h1] at h
    by_cases h2 : hd.pointformat == "ENV".toList
    · simp only [if_pos h2] at h; simp at h
    · simp only [if_neg h2] at h; simp at h

theorem mkSeries_env_ok {hd : Header} {n : ℕ} {data : List ℤ}
    {t mn mx : List PyNum} (h : mkSeries hd n data = .ok (.env t mn mx)) :
    hd.pointformat = "ENV".toList ∧ t = timeListEnv hd (n / 2) ∧
      mn = valueList hd (sliceStep2 data) ∧
      mx = valueList hd (sliceStep2 (data.drop 1)) := by
  unfold mkSeries at h
  by_cases h1 : hd.pointformat == "Y".toList
  · simp only [if_pos h1] at h; simp at h
  · simp only [if_neg h1] at h
    by_cases h2 : hd.pointformat == "ENV".toList
    · simp only [if_pos h2] at h
      injection h with h3
      injection h3 with h4 h5 h6
      exact ⟨by simpa using h2, h4.symm, h5.symm, h6.symm⟩
    · simp only [if_neg h2] at h; simp at h

theorem toQ_intV (z : ℤ) : (PyNum.intV z).toQ = (z : ℚ) := rfl

theorem pyAdd_toQ (x y : PyNum) : (pyAdd x y).toQ = x.toQ + y.toQ := by
  cases x <;> cases y <;> simp [pyAdd, PyNum.toQ]

theorem pySub_toQ (x y : PyNum) : (pySub x y).toQ = x.toQ - y.toQ := by
  cases x <;> cases y <;> simp [pySub, PyNum.toQ]

theorem pyMul_toQ (x y : PyNum) : (pyMul x y).toQ = x.toQ * y.toQ := by
  cases x <;> cases y <;> simp [pyMul, PyNum.toQ]

theorem timeList_toQ (hd : Header) (n : ℕ) :
    (timeList hd n).map PyNum.toQ = (List.range n).map
      (fun i : ℕ => hd.xzero.toQ + hd.xincr.toQ * ((i : ℚ) - hd.ptoff.toQ)) := by
  unfold timeList
  rw [List.map_map]
  refine congrArg (fun g => List.map g (List.range n)) (funext fun i => ?_)
  simp only [Function.comp, pyAdd_toQ, pyMul_toQ, pySub_toQ, toQ_intV]
  try push_cast
  try ring

theorem valueList_toQ (hd : Header) (data : List ℤ) :
    (valueList hd data).map PyNum.toQ = data.map
      (fun y : ℤ => hd.yzero.toQ + hd.ymult.toQ * ((y : ℚ) - hd.yoff.toQ)) := by
  unfold valueList
  rw [List.map_map]
  refine congrArg (fun g => List.map g data) (funext fun y => ?_)
  simp only [Function.comp, pyAdd_toQ, pyMul_toQ, pySub_toQ, toQ_intV]
  try push_cast
  try ring

theorem timeListEnv_toQ (hd : Header) (m : ℕ) :
    (timeListEnv hd m).map PyNum.toQ = (List.range m).map
      (fun i : ℕ => hd.xzero.toQ + hd.xincr.toQ * ((i : ℚ) - hd.ptoff.toQ) * 2) := by
  unfold timeListEnv
  rw [List.map_map]
  refine congrArg (fun g => List.map g (List.range m)) (funext fun i => ?_)
  simp only [Function.comp, pyAdd_toQ, pyMul_toQ, pySub_toQ, toQ_intV]
  try push_cast
  try ring

theorem fmtNpts_ok {x : PyNum} {n : ℕ} (h : fmtNpts x = .ok n) :
    x = .intV (n : ℤ) := by
  cases x with
  | intV z =>
      by_cases hz : z < 0
      · simp [fmtNpts, hz] at h
      · simp only [fmtNpts, if_neg hz] at h
        injection h with h2
        subst h2
        congr 1
        omega
  | floatV q => simp [fmtNpts] at h

theorem decode16_length (e : Endian) :
    ∀ bs : List Char, (decode16 e bs).length = bs.length / 2
  | [] => rfl
  | [b] => by
      show ([] : List ℤ).length = [b].length / 2
      simp
  | _ :: _ :: rest => by
      simp only [decode16, List.length_cons, decode16_length e rest]
      omega

theorem unpackData_ok_length {f : List Char} {p : Pre} {n : ℕ} {e : Endian}
    {data : List ℤ} (h : unpackData f p n e = .ok data) : data.length = n := by
  unfold unpackData at h
  by_cases hl : ((f.drop (dataPos f p)).take (2 * n)).length == 2 * n
  · simp only [if_pos hl] at h
    injection h with h2
    subst h2
    rw [decode16_length]
    have := beq_iff_eq .. |>.mp hl
    omega
  · simp only [if_neg hl] at h; simp at h

theorem sliceStep2_length : ∀ xs : List ℤ,
    (sliceStep2 xs).length = (xs.length + 1) / 2
  | [] => rfl
  | [a] => by
      show [a].length = ([a].length + 1) / 2
      simp
  | _ :: _ :: rest => by
      simp only [sliceStep2, List.length_cons, sliceStep2_length rest]
      omega

theorem sliceStep2_getD : ∀ (xs : List ℤ) (i : ℕ) (d : ℤ),
    (sliceStep2 xs).getD i d = xs.getD (2 * i) d
  | [], i, d => by simp [sliceStep2]
  | [a], i, d => by
      cases i with
      | zero => rfl
      | succ j =>
          show [a].getD (j + 1) d = [a].getD (2 * (j + 1)) d
          rw [List.getD_eq_default _ _
                (by simp only [List.length_singleton]; omega),
              List.getD_eq_default _ _
                (by simp only [List.length_singleton]; omega)]
  | a :: b :: rest, 0, d => rfl
  | a :: b :: rest, i + 1, d => by
      have h2 : 2 * (i + 1) = (2 * i) + 1 + 1 := by omega
      simp only [sliceStep2, h2]
      show (sliceStep2 rest).getD i d = rest.getD (2 * i) d
      exact sliceStep2_getD rest i d

theorem drop_one_getD (xs : List ℤ) (i : ℕ) (d : ℤ) :
    (xs.drop 1).getD i d = xs.getD (i + 1) d := by
  cases xs with
  | nil => simp
  | cons a rest => simp [List.getD]

theorem digitAt_ok_inv {hb : List Char} {i : ℕ} {d : ℕ}
    (h : digitAt hb i = .ok d) :
    ∃ c, hb.get? i = some c ∧ isAsciiDigit c = true ∧ d = c.toNat - 48 := by
  unfold digitAt at h
  cases hc : hb.get? i with
  | none => simp only [hc] at h; simp at h
  | some c =>
    simp only [hc] at h
    by_cases hdig : isAsciiDigit c
    · simp only [if_pos hdig] at h
      injection h with h2
      exact ⟨c, rfl, hdig, h2.symm⟩
    · simp only [if_neg hdig] at h; simp at h

theorem pre_invariance {f g : List Char} {loc kl : ℕ} {old : Bool} {d : ℕ}
    (h1 : locateCurv (f.take 511) = some (loc, kl, old))
    (h2 : locateCurv (g.take 511) = some (loc, kl, old))
    (hd3 : digitAt (f.take 511) (loc + kl) = .ok d)
    (hpre : f.take (loc + kl + 1 + d) = g.take (loc + kl + 1 + d)) :
    isfread3Pre f = isfread3Pre g := by
  obtain ⟨c, hget, hdig, hdd⟩ := digitAt_ok_inv hd3
  have hlt511 : loc + kl < 511 := by
    have := List.get?_eq_some.mp hget
    obtain ⟨hl, _⟩ := this
    have : (f.take 511).length ≤ 511 := by
      simp [List.length_take]
    omega
  have hltN : loc + kl < loc + kl + 1 + d := by omega
  -- the two 511-byte prefixes agree at the digit position
  have hgetg : (g.take 511).get? (loc + kl) = some c := by
    rw [List.get?_eq_getElem?] at hget ⊢
    rw [List.getElem?_take_of_lt hlt511] at hget ⊢
    have hf : f[loc + kl]? = (f.take (loc + kl + 1 + d))[loc + kl]? :=
      (List.getElem?_take_of_lt hltN).symm
    have hg : g[loc + kl]? = (g.take (loc + kl + 1 + d))[loc + kl]? :=
      (List.getElem?_take_of_lt hltN).symm
    rw [hg, ← hpre, ← hf]
    exact hget
  have hdg : digitAt (g.take 511) (loc + kl) = .ok d := by
    unfold digitAt
    simp only [hgetg, if_pos hdig, hdd]
  -- the truncated preambles agree
  have htr : (f.take 511).take (loc + kl + 1 + d) =
      (g.take 511).take (loc + kl + 1 + d) := by
    rw [List.take_take, List.take_take, Nat.min_comm, ← List.take_take,
        hpre, List.take_take, Nat.min_comm]
  simp only [isfread3Pre, h1, h2, hd3, hdg, htr]

theorem take_min_length (s : List Char) (m : ℕ) :
    s.take (min m s.length) = s.take m := by
  rcases le_total m s.length with h | h
  · rw [min_eq_left h]
  · rw [min_eq_right h, List.take_length, List.take_of_length_le h]

theorem drop_min_length (s : List Char) (m k : ℕ) :
    (s.take k).drop (min m s.length) = (s.take k).drop m := by
  rcases le_total m s.length with h | h
  · rw [min_eq_left h]
  · rw [min_eq_right h]
    have hlen : (s.take k).length ≤ s.length := by
      rw [List.length_take]
      omega
    rw [List.drop_eq_nil_of_le hlen, List.drop_eq_nil_of_le (le_trans hlen h)]

theorem pySlice_nonneg (s : List Char) (a b : ℤ) (ha : 0 ≤ a) (hb : 0 ≤ b) :
    pySlice s a b = (s.take b.toNat).drop a.toNat := by
  unfold pySlice sliceIdx
  rw [if_neg (by omega), if_neg (by omega), take_min_length, drop_min_length]

theorem scanFind_single (c : Char) : ∀ (l : List Char) (i : ℕ),
    (scanFind [c] i l = -1 ↔ c ∉ l) := by
  intro l
  induction l with
  | nil => intro i; simp [scanFind]
  | cons a rest ih =>
    intro i
    simp only [scanFind, List.length_singleton, List.take_succ_cons,
      List.take_zero]
    by_cases h : ([c] : List Char) == [a]
    · rw [if_pos h]
      have hca : c = a := by simpa using h
      subst hca
      simp
    · rw [if_neg h]
      have hca : c ≠ a := by
        intro hcc
        subst hcc
        simp at h
      rw [ih (i + 1)]
      simp [hca]

theorem pyFind_single_dot (s : List Char) (c : Char) :
    (pyFind s [c] 0 = -1 ↔ c ∉ s) := by
  unfold pyFind
  simp only [lt_self_iff_false, if_false, Int.toNat_zero, List.drop_zero]
  rw [if_neg (by omega)]
  exact scanFind_single c s 0

theorem asciiDecode_ok {s t : List Char} (h : asciiDecode s = .ok t) : t = s := by
  unfold asciiDecode at h
  by_cases hc : s.all (fun c => c.toNat < 128)
  · rw [if_pos hc] at h
    injection h with h2
    exact h2.symm
  · rw [if_neg hc] at h
    exact absurd h (by simp)

/-- C1: for every input the Python-3 decoder accepts with point format
`Y`, the returned time and value rows both have `pointCount` entries, with
`time[i] = xzero + xincr * (i - ptoff)` and
`value[i] = yzero + ymult * (rawSample[i] - yoff)` (stated as equality of
the whole rows, read through `PyNum.toQ`). -/
theorem c1_y_decode_correct (f : List Char) (t v : List PyNum) (H : Header)
    (p : Pre) (n : ℕ) (e : Endian) (D : List ℤ)
    (h : isfread3 f = .ok (.y t v, H))
    (hraw : isfread3Raw f = .ok (p, n, e, D)) :
    H = p.hd ∧ H.npts = .intV (n : ℤ) ∧ t.length = n ∧ v.length = n ∧
      D.length = n ∧
      t.map PyNum.toQ = (List.range n).map
        (fun i : ℕ => H.xzero.toQ + H.xincr.toQ * ((i : ℚ) - H.ptoff.toQ)) ∧
      v.map PyNum.toQ = D.map
        (fun y : ℤ => H.yzero.toQ + H.ymult.toQ * ((y : ℚ) - H.yoff.toQ)) := by
  obtain ⟨hpre, hdec, hen, hn, hu⟩ := isfread3Raw_ok hraw
  obtain ⟨hs, hhd⟩ := isfread3_ok_stage h hraw
  obtain ⟨hpf, ht, hv⟩ := mkSeries_y_ok hs
  subst hhd
  subst ht
  subst hv
  have hdl := unpackData_ok_length hu
  refine ⟨rfl, fmtNpts_ok hn, ?_, ?_, hdl, timeList_toQ .., valueList_toQ ..⟩
  · simp [timeList]
  · simp [valueList, hdl]

/-- Witness for C1: the concrete file `W1` (4 samples 10, -5, 0, 100 with
`ymult 2`) decodes to time `[0,1,2,3]` and value `[20,-10,0,200]`, and the
conclusion of `c1_y_decode_correct` holds there. -/
theorem c1_y_decode_correct_witness :
    W1hd = W1pre.hd ∧ W1hd.npts = .intV (4 : ℤ) ∧ W1t.length = 4 ∧
      W1v.length = 4 ∧ W1D.length = 4 ∧
      W1t.map PyNum.toQ = (List.range 4).map
        (fun i : ℕ =>
          W1hd.xzero.toQ + W1hd.xincr.toQ * ((i : ℚ) - W1hd.ptoff.toQ)) ∧
      W1v.map PyNum.toQ = W1D.map
        (fun y : ℤ =>
          W1hd.yzero.toQ + W1hd.ymult.toQ * ((y : ℚ) - W1hd.yoff.toQ)) :=
  c1_y_decode_correct W1 W1t W1v W1hd W1pre 4 .little W1D (by rfl) (by rfl)

/-- C2 counterexample: on the `ENV` file `W2o` with odd point count 5 the
Python-3 decoder succeeds, but the min-value row has 3 entries while the
claim demands `floor(5 / 2) = 2`: the even-index slice of 5 samples keeps
3 elements. -/
theorem c2_env_odd_counterexample :
    isfread3 W2o = .ok (.env [.intV 0, .intV 2]
        [.intV 2, .intV 6, .intV 10] [.intV 4, .intV 8], W2ohd) ∧
      W2ohd.npts = .intV (5 : ℤ) ∧
      ¬ (([.intV 2, .intV 6, .intV 10] : List PyNum).length = 5 / 2) :=
  ⟨by rfl, by rfl, by decide⟩

/-- C2 (amended): for every input the Python-3 decoder accepts with point
format `ENV`, the time and max-value rows have `pointCount / 2` entries
while the min-value row has `(pointCount + 1) / 2` entries (one more when
`pointCount` is odd); `time[i] = xzero + xincr * (i - ptoff) * 2`,
`minValue[i] = yzero + ymult * (rawSample[2i] - yoff)` and
`maxValue[i] = yzero + ymult * (rawSample[2i+1] - yoff)`. -/
theorem c2_env_decode_amended (f : List Char) (t mn mx : List PyNum)
    (H : Header) (p : Pre) (n : ℕ) (e : Endian) (D : List ℤ)
    (h : isfread3 f = .ok (.env t mn mx, H))
    (hraw : isfread3Raw f = .ok (p, n, e, D)) :
    H = p.hd ∧ H.npts = .intV (n : ℤ) ∧ D.length = n ∧
      t.length = n / 2 ∧ mn.length = (n + 1) / 2 ∧ mx.length = n / 2 ∧
      t.map PyNum.toQ = (List.range (n / 2)).map
        (fun i : ℕ =>
          H.xzero.toQ + H.xincr.toQ * ((i : ℚ) - H.ptoff.toQ) * 2) ∧
      mn.map PyNum.toQ = (sliceStep2 D).map
        (fun y : ℤ => H.yzero.toQ + H.ymult.toQ * ((y : ℚ) - H.yoff.toQ)) ∧
      mx.map PyNum.toQ = (sliceStep2 (D.drop 1)).map
        (fun y : ℤ => H.yzero.toQ + H.ymult.toQ * ((y : ℚ) - H.yoff.toQ)) ∧
      (∀ (i : ℕ) (d : ℤ), (sliceStep2 D).getD i d = D.getD (2 * i) d) ∧
      (∀ (i : ℕ) (d : ℤ),
        (sliceStep2 (D.drop 1)).getD i d = D.getD (2 * i + 1) d) := by
  obtain ⟨hpre, hdec, hen, hn, hu⟩ := isfread3Raw_ok hraw
  obtain ⟨hs, hhd⟩ := isfread3_ok_stage h hraw
  obtain ⟨hpf, ht, hmn, hmx⟩ := mkSeries_env_ok hs
  subst hhd
  subst ht
  subst hmn
  subst hmx
  have hdl := unpackData_ok_length hu
  refine ⟨rfl, fmtNpts_ok hn, hdl, ?_, ?_, ?_, timeListEnv_toQ ..,
    valueList_toQ .., valueList_toQ .., ?_, ?_⟩
  · simp [timeListEnv]
  · simp [valueList, sliceStep2_length, hdl]
  · simp only [valueList, List.length_map, sliceStep2_length,
      List.length_drop, hdl]
    omega
  · exact fun i d => sliceStep2_getD D i d
  · intro i d
    rw [sliceStep2_getD (D.drop 1) i d, drop_one_getD]

/-- Witness for the amended C2: the concrete even-count `ENV` file `W2`
(4 samples 10, -5, 0, 100) decodes to time `[0,2]`, min `[20,0]`,
max `[-10,200]`, and the conclusion of `c2_env_decode_amended` holds. -/
theorem c2_env_decode_amended_witness :
    W2hd = W2pre.hd ∧ W2hd.npts = .intV (4 : ℤ) ∧ W1D.length = 4 ∧
      ([.intV 0, .intV 2] : List PyNum).length = 4 / 2 ∧
      ([.intV 20, .intV 0] : List PyNum).length = (4 + 1) / 2 ∧
      ([.intV (-10), .intV 200] : List PyNum).length = 4 / 2 ∧
      ([.intV 0, .intV 2] : List PyNum).map PyNum.toQ =
        (List.range (4 / 2)).map (fun i : ℕ =>
          W2hd.xzero.toQ + W2hd.xincr.toQ * ((i : ℚ) - W2hd.ptoff.toQ) * 2) ∧
      ([.intV 20, .intV 0] : List PyNum).map PyNum.toQ =
        (sliceStep2 W1D).map (fun y : ℤ =>
          W2hd.yzero.toQ + W2hd.ymult.toQ * ((y : ℚ) - W2hd.yoff.toQ)) ∧
      ([.intV (-10), .intV 200] : List PyNum).map PyNum.toQ =
        (sliceStep2 (W1D.drop 1)).map (fun y : ℤ =>
          W2hd.yzero.toQ + W2hd.ymult.toQ * ((y : ℚ) - W2hd.yoff.toQ)) ∧
      (∀ (i : ℕ) (d : ℤ), (sliceStep2 W1D).getD i d = W1D.getD (2 * i) d) ∧
      (∀ (i : ℕ) (d : ℤ),
        (sliceStep2 (W1D.drop 1)).getD i d = W1D.getD (2 * i + 1) d) :=
  c2_env_decode_amended W2 [.intV 0, .intV 2] [.intV 20, .intV 0]
    [.intV (-10), .intV 200] W2hd W2pre 4 .little W1D (by rfl) (by rfl)

/-- C3 counterexample: the legacy Python-2 decoder, fed the file `W9`
whose length prefix declares 9 = pointCount × 2 + 1 bytes (digit count 1,
digits `9`, `NR_PT 4`), prints only a warning and still returns a sample
series, so the decode does not fail. -/
theorem c3_py2_mismatch_counterexample :
    isfread2 W9 = ([py2WarnMsg],
      .ok ([.intV 0, .intV 1, .intV 2, .intV 3],
           [.intV 2, .intV 4, .intV 6, .intV 8], W9hd)) ∧
      pyFind (W9.take 511) curveKey 0 = 144 ∧
      (W9.drop (144 + 8)).take 2 = "19".toList ∧
      W9hd.npts = .intV (4 : ℤ) :=
  ⟨by rfl, by rfl, by rfl, by rfl⟩

/-- C3 (amended, Python 3 part): whenever the Python-3 decoder reaches the
byte-count check with a declared count different from `2 * pointCount`, it
fails with the byte-count-mismatch exit and returns no series.  (The
legacy Python-2 decoder instead only warns; see the counterexample.) -/
theorem c3_byte_count_mismatch_fatal_py3 (f : List Char) (p : Pre) (c : ℤ)
    (e : Endian) (n : ℕ) (hp : isfread3Pre f = .ok p)
    (hdec : readDeclared f p = .ok c)
    (hen : dictEndianE p.hd.byteorder = .ok e)
    (hn : fmtNpts p.hd.npts = .ok n) (hne : c ≠ ((2 * n : ℕ) : ℤ)) :
    isfread3 f = .error .exitByteCountMismatch := by
  unfold isfread3 isfread3Raw
  simp only [hp, hdec, hen, hn, if_pos hne]

/-- Witness for the amended C3: the Python-3 decoder rejects `W5`, which
declares 9 = 2 × 4 + 1 bytes for its 4 points. -/
theorem c3_byte_count_witness :
    readDeclared W5 W5pre = .ok 9 ∧ (9 : ℤ) ≠ ((2 * 4 : ℕ) : ℤ) ∧
      isfread3 W5 = .error .exitByteCountMismatch :=
  ⟨by rfl, by decide,
   c3_byte_count_mismatch_fatal_py3 W5 W5pre 9 .little 4 (by rfl) (by rfl)
     (by rfl) (by rfl) (by decide)⟩

/-- C4 (amended, Python 3 part): the Python-3 locator searches the leading
511 bytes for `:CURV #` first and falls back to `:CURVE #` only when the
first marker is absent; when neither occurs in the 511-byte prefix the
decode fails with the no-marker exit.  (The Python-2 script searches only
for `:CURVE #` and has no such failure; see the counterexample.) -/
theorem c4_marker_search_py3 :
    (∀ hb : List Char, pyFind hb curvKey 0 ≠ -1 →
        locateCurv hb = some ((pyFind hb curvKey 0).toNat, 7, false)) ∧
      (∀ hb : List Char, pyFind hb curvKey 0 = -1 →
        pyFind hb curveKey 0 ≠ -1 →
        locateCurv hb = some ((pyFind hb curveKey 0).toNat, 8, true)) ∧
      (∀ f : List Char, pyFind (f.take 511) curvKey 0 = -1 →
        pyFind (f.take 511) curveKey 0 = -1 →
        isfread3 f = .error .exitNoCurveMarker) := by
  refine ⟨?_, ?_, ?_⟩
  · intro hb h
    unfold locateCurv
    rw [if_pos h]
    rfl
  · intro hb h1 h2
    unfold locateCurv
    rw [if_neg (by simp [h1]), if_pos h2]
    rfl
  · intro f h1 h2
    have hl : locateCurv (f.take 511) = none := by
      unfold locateCurv
      rw [if_neg (by simp [h1]), if_neg (by simp [h2])]
    unfold isfread3 isfread3Raw isfread3Pre
    simp only [hl]

/-- Witness for the amended C4: a buffer holding `:CURV #` resolves to the
new convention, and a buffer holding neither marker makes the Python-3
decode exit with the no-marker error. -/
theorem c4_marker_search_witness :
    locateCurv (":CURV #3abc".toList) =
        some ((pyFind (":CURV #3abc".toList) curvKey 0).toNat, 7, false) ∧
      isfread3 ("hello world".toList) = .error .exitNoCurveMarker :=
  ⟨c4_marker_search_py3.1 (":CURV #3abc".toList) (by decide),
   c4_marker_search_py3.2.2 ("hello world".toList) (by rfl) (by rfl)⟩

/-- C4 counterexample: the file `W6` contains neither `:CURV #` nor
`:CURVE #`, yet the Python-2 decoder does not raise a malformed-header
error — it returns a complete sample series (after seeking to the fixed
offset `-1 + 8 = 7`). -/
theorem c4_py2_no_marker_counterexample :
    pyFind (W6.take 511) curvKey 0 = -1 ∧
      pyFind (W6.take 511) curveKey 0 = -1 ∧
      isfread2 W6 = ([], .ok ([.intV 0, .intV 1, .intV 2, .intV 3],
        [.intV 33410, .intV 33924, .intV 34438, .intV 34952], W6hd)) :=
  ⟨by rfl, by rfl, by rfl⟩

/-- C5 (amended, Python 3 part): the Python-3 front end truncates the
preamble to end exactly at `markerPos + markerLen + 1 + digitCount` and
every tag lookup reads only that truncated text: two files that agree on
the marker search and on the bytes up to the truncation point give the
same front-end result, whatever their binary blocks hold.  (The Python-2
script scans the whole untruncated 511-byte prefix; see the
counterexample.) -/
theorem c5_truncated_tag_scan_py3 :
    (∀ (f : List Char) (p : Pre), isfread3Pre f = .ok p →
        p.trunc = (f.take 511).take (p.loc + p.keylen + 1 + p.ndig)) ∧
      (∀ (f g : List Char) (loc kl : ℕ) (old : Bool) (d : ℕ),
        locateCurv (f.take 511) = some (loc, kl, old) →
        locateCurv (g.take 511) = some (loc, kl, old) →
        digitAt (f.take 511) (loc + kl) = .ok d →
        f.take (loc + kl + 1 + d) = g.take (loc + kl + 1 + d) →
        isfread3Pre f = isfread3Pre g) := by
  constructor
  · intro f p h
    unfold isfread3Pre at h
    cases hl : locateCurv (f.take 511) with
    | none => simp only [hl] at h; simp at h
    | some trip =>
      obtain ⟨loc, kl, old⟩ := trip
      simp only [hl] at h
      cases hdg : digitAt (f.take 511) (loc + kl) with
      | error e => simp only [hdg] at h; simp at h
      | ok d =>
        simp only [hdg] at h
        cases ha : asciiDecode ((f.take 511).take (loc + kl + 1 + d)) with
        | error e => simp only [ha] at h; simp at h
        | ok tr =>
          simp only [ha] at h
          cases hm : mkHeader (if old then oldTags else newTags) tr with
          | error e => simp only [hm] at h; simp at h
          | ok hd2 =>
            simp only [hm] at h
            injection h with h2
            rw [← h2]
            exact asciiDecode_ok ha
  · exact fun f g loc kl old d h1 h2 h3 h4 => pre_invariance h1 h2 h3 h4

/-- Witness for the amended C5: replacing the binary block of the concrete
file `W1` with other bytes does not change the front-end result, which is
the explicit record `W1pre`. -/
theorem c5_truncated_tag_scan_witness :
    isfread3Pre W1 = isfread3Pre W1b ∧ isfread3Pre W1 = .ok W1pre :=
  ⟨c5_truncated_tag_scan_py3.2 W1 W1b 147 8 true 1 (by rfl) (by rfl)
     (by rfl) (by rfl),
   by rfl⟩

/-- C5 counterexample: the Python-2 decoder extracts a tag value from
bytes beyond the binary sample block: in `W7` the only `YUNIT` tag starts
at byte 152, past the block data (bytes 144-151, marker at 134), and the
decode succeeds with `yunit = "Q"` taken from there. -/
theorem c5_py2_untruncated_counterexample :
    (isfread2 W7).2 = .ok ([.intV 0, .intV 1, .intV 2, .intV 3],
        [.intV 2, .intV 4, .intV 6, .intV 8], W7hd) ∧
      W7hd.yunit = "Q".toList ∧
      pyFind (W7.take 511) curveKey 0 = 134 ∧
      pyFind (W7.take 511) ("YUNIT".toList) 0 = 152 ∧
      134 + 8 + 1 + 1 ≤ 152 :=
  ⟨by rfl, by rfl, by rfl, by rfl, by decide⟩

/-- C6: for a numeric tag present in the text with a `;` delimiter at or
after the tag end, `getnum` parses exactly the substring strictly between
the end of the first tag occurrence and that `;` — as a float when it
holds a `.`, as an integer otherwise. -/
theorem c6_getnum_spec (s tag : List Char) (a b : ℤ)
    (h1 : pyFind s tag 0 = a) (ha : 0 ≤ a)
    (h2 : pyFind s [';'] a = b) (hab : a + (tag.length : ℤ) ≤ b) :
    getnum s tag =
      (let sub := (s.take b.toNat).drop (a.toNat + tag.length)
       if '.' ∈ sub then Except.map PyNum.floatV (pyFloatE sub)
       else Except.map PyNum.intV (pyIntE sub)) := by
  have hb : (0 : ℤ) ≤ b := by omega
  unfold getnum
  simp only [h1, h2]
  rw [pySlice_nonneg s (a + (tag.length : ℤ)) b (by omega) hb]
  have he : (a + (tag.length : ℤ)).toNat = a.toNat + tag.length := by omega
  rw [he]
  by_cases hm : '.' ∈ (s.take b.toNat).drop (a.toNat + tag.length)
  · have hj : ¬ pyFind ((s.take b.toNat).drop (a.toNat + tag.length))
        ['.'] 0 = -1 := by
      rw [pyFind_single_dot]
      simpa using hm
    have hbeq : (pyFind ((s.take b.toNat).drop (a.toNat + tag.length))
        ['.'] 0 == -1) = false := by
      simpa [beq_iff_eq] using hj
    simp only [hbeq, Bool.false_eq_true, if_false, if_pos hm]
    cases pyFloatE ((s.take b.toNat).drop (a.toNat + tag.length)) <;> rfl
  · have hj : pyFind ((s.take b.toNat).drop (a.toNat + tag.length))
        ['.'] 0 = -1 := by
      rw [pyFind_single_dot]
      simpa using hm
    have hbeq : (pyFind ((s.take b.toNat).drop (a.toNat + tag.length))
        ['.'] 0 == -1) = true := by
      simpa [beq_iff_eq] using hj
    simp only [hbeq, if_true, if_neg hm]
    cases pyIntE ((s.take b.toNat).drop (a.toNat + tag.length)) <;> rfl

/-- Witness for C6: on the text `XZE 1.5;` the tag `XZE` is at 0, the `;`
at 7, the extracted substring is ` 1.5`, it holds a dot, and `getnum`
succeeds on the float branch. -/
theorem c6_getnum_spec_witness :
    getnum ("XZE 1.5;".toList) ("XZE".toList) =
      (let sub := (("XZE 1.5;".toList).take ((7 : ℤ).toNat)).drop
        ((0 : ℤ).toNat + ("XZE".toList).length)
       if '.' ∈ sub then Except.map PyNum.floatV (pyFloatE sub)
       else Except.map PyNum.intV (pyIntE sub)) ∧
      (("XZE 1.5;".toList).take 7).drop 3 = " 1.5".toList ∧
      isOkE (getnum ("XZE 1.5;".toList) ("XZE".toList)) = true :=
  ⟨c6_getnum_spec ("XZE 1.5;".toList) ("XZE".toList) 0 7 (by rfl) (by decide)
     (by rfl) (by decide),
   by rfl, by rfl⟩

/-- C7: the byte-order dictionary maps exactly `MSB` to big-endian and
`LSB` to little-endian; the two endiannesses combine sample bytes in
opposite orders; and when the extracted byte-order field is any other
string, the Python-3 decode fails with the dictionary `KeyError` before
any sample is unpacked, returning no series. -/
theorem c7_byte_order_dispatch :
    dictEndian ("MSB".toList) = some .big ∧
      dictEndian ("LSB".toList) = some .little ∧
      (∀ s : List Char, s ≠ "MSB".toList → s ≠ "LSB".toList →
        dictEndian s = none) ∧
      (∀ b0 b1 : Char,
        decode16 .big [b0, b1] = [toSigned16 (256 * b0.toNat + b1.toNat)] ∧
        decode16 .little [b0, b1] =
          [toSigned16 (b0.toNat + 256 * b1.toNat)]) ∧
      (∀ (f : List Char) (p : Pre) (c : ℤ), isfread3Pre f = .ok p →
        readDeclared f p = .ok c → dictEndian p.hd.byteorder = none →
        isfread3 f = .error .keyError) := by
  refine ⟨by rfl, by rfl, ?_, ?_, ?_⟩
  · intro s h1 h2
    unfold dictEndian
    rw [if_neg (by simpa using h1), if_neg (by simpa using h2)]
  · intro b0 b1
    exact ⟨rfl, rfl⟩
  · intro f p c hp hdec hn
    unfold isfread3 isfread3Raw dictEndianE
    simp only [hp, hdec, hn]

/-- Witness for C7: `XSB` is not a key of the dictionary, and the concrete
file `W11` with byte order `XSB` makes the Python-3 decode fail with the
`KeyError`. -/
theorem c7_byte_order_witness :
    dictEndian ("XSB".toList) = none ∧ isfread3 W11 = .error .keyError :=
  ⟨c7_byte_order_dispatch.2.2.1 ("XSB".toList) (by decide) (by decide),
   c7_byte_order_dispatch.2.2.2.2 W11 W11pre 8 (by rfl) (by rfl) (by rfl)⟩

/-- C8: whenever the Python-3 decoder reaches the series construction with
a point-format field that is neither `Y` nor `ENV`, it fails with the
bad-point-format exit and returns no sample series. -/
theorem c8_unsupported_point_format_fatal (f : List Char) (p : Pre) (n : ℕ)
    (e : Endian) (D : List ℤ) (hraw : isfread3Raw f = .ok (p, n, e, D))
    (h1 : p.hd.pointformat ≠ "Y".toList)
    (h2 : p.hd.pointformat ≠ "ENV".toList) :
    isfread3 f = .error .exitBadPointFormat := by
  have b1 : (p.hd.pointformat == "Y".toList) = false := by
    simpa using h1
  have b2 : (p.hd.pointformat == "ENV".toList) = false := by
    simpa using h2
  unfold isfread3 mkSeries
  simp only [hraw, b1, b2, Bool.false_eq_true, if_false]

/-- Witness for C8: the concrete file `W8` with point format `X` makes the
Python-3 decode exit with the bad-point-format error. -/
theorem c8_unsupported_point_format_witness :
    W8hd.pointformat ≠ "Y".toList ∧ W8hd.pointformat ≠ "ENV".toList ∧
      isfread3 W8 = .error .exitBadPointFormat :=
  ⟨by decide, by decide,
   c8_unsupported_point_format_fatal W8 W8pre 4 .little [10, -5, 0, 100]
     (by rfl) (by decide) (by decide)⟩

/-- C9 counterexample: in the file `W3` the required tag `ENCDG` is absent
from the whole 511-byte prefix (the tag scan yields no match), yet the
Python-3 decode succeeds — the encoding field silently receives an
arbitrary substring of the preamble instead of an error being raised. -/
theorem c9_missing_tag_counterexample :
    pyFind (W3.take 511) ("ENCDG".toList) 0 = -1 ∧
      isOkE (isfread3 W3) = true :=
  ⟨by rfl, by rfl⟩

/-- C9 (amended): a missing tag does not by itself abort the Python-3
decode (the scan falls back to other text, and a string-valued tag can
silently receive an arbitrary value — see the counterexample); but when a
field extraction does fail (as when a missing numeric tag makes the
fallback substring unparseable), that error aborts the decode. -/
theorem c9_field_error_propagates (f : List Char) (loc kl : ℕ) (old : Bool)
    (d : ℕ) (tr : List Char) (E : PyErr)
    (h1 : locateCurv (f.take 511) = some (loc, kl, old))
    (h2 : digitAt (f.take 511) (loc + kl) = .ok d)
    (h3 : asciiDecode ((f.take 511).take (loc + kl + 1 + d)) = .ok tr)
    (h4 : mkHeader (if old then oldTags else newTags) tr = .error E) :
    isfread3 f = .error E := by
  unfold isfread3 isfread3Raw isfread3Pre
  simp only [h1, h2, h3, h4]

/-- Witness for the amended C9: in `W10` the numeric tag `NR_PT` is
missing, its fallback substring fails `int(...)`, and the decode aborts
with that `ValueError`. -/
theorem c9_field_error_propagates_witness :
    mkHeader oldTags (W10text.toList) = .error .valueError ∧
      isfread3 W10 = .error .valueError :=
  ⟨by rfl,
   c9_field_error_propagates W10 139 8 true 1 (W10text.toList) .valueError
     (by rfl) (by rfl) (by rfl) (by rfl)⟩

/-- C10: in the Python-2 script, an input failing the supported-format
check (bytenum ≠ 2, bitnum ≠ 16, encoding ≠ `BIN`, binformat ≠ `RI` or
pointformat ≠ `Y`) makes `isfread` print the diagnostic and close the
file without returning; execution continues into the block-reading code,
whose `FID.seek` then raises on the closed handle, so the call never
yields a decoded result. -/
theorem c10_py2_closed_file (f : List Char) (H : Header)
    (h1 : mkHeader oldTags (f.take 511) = .ok H)
    (h2 : py2checkFails H = true) :
    isfread2 f = ([py2UnableMsg], .error .closedFileSeek) := by
  unfold isfread2
  simp only [h1, h2, if_true]

/-- Witness for C10: the `ENV`-format file `W2` fails the Python-2 check
(its point format is not `Y`); the decode prints the diagnostic and dies
on the closed file handle. -/
theorem c10_py2_closed_file_witness :
    py2checkFails W2hd = true ∧
      isfread2 W2 = ([py2UnableMsg], .error .closedFileSeek) :=
  ⟨by rfl, c10_py2_closed_file W2 W2hd (by rfl) (by rfl)⟩
